import Mathlib

/-!
Request layer of the Dataverse Go client (`api/api.go`).

A shallow embedding of `api/api.go`: the credential model (`getCredentials`,
`NewRequest`), URL resolution and signing (`signUrl`, `signingRequest`), the
dispatcher (`DoStream`, `Do`) and the stream decoder (`unmarshalAndCloseStream`).

Conventions.

* A Go `string` is a byte sequence. It is modelled as `List Char`, every element
  standing for one byte; an ASCII text is its own list of characters.
* A Go `error` is a value of `GoError`; `nil` is `none`.
* What lies outside the package (the HTTP transport, `json.Unmarshal`, `url.Parse`,
  the validation done by `http.NewRequestWithContext`) is a field of `Env`: every
  theorem holds for all behaviours of these.  The small library functions the
  results depend on byte for byte (`url.QueryUnescape`, `url.ParseQuery`,
  `http.Header.Add`, `fmt` on a format without operands) are modelled after the
  Go standard library.
* Effects are recorded as a list of `Event`s next to the result.
-/

namespace Api

/-! ## Strings and errors -/

/-- Go string: a sequence of bytes, one `Char` per byte. -/
abbrev GoString := List Char

/-- Go `strings.HasPrefix(s, p)`. -/
def HasPrefix (s p : GoString) : Bool := p.isPrefixOf s

/-- Go `strings.Contains(s, c)` for a one-byte `c`. -/
def Contains (s : GoString) (c : Char) : Bool := s.contains c

/-- Go `strings.Cut(s, sep)` for a one-byte separator: the text before the first
separator, the text after it, and whether the separator was found. -/
def Cut (s : GoString) (sep : Char) : GoString × GoString × Bool :=
  match s.dropWhile (fun c => c != sep) with
  | [] => (s, [], false)
  | _ :: after => (s.takeWhile (fun c => c != sep), after, true)

/-- Go error values, as far as this package can tell them apart. -/
inductive GoError where
  /-- Value of `errors.New(text)`, which `fmt.Errorf` returns when no `%w` is used. -/
  | errorString (text : GoString)
  /-- Value of `url.EscapeError(s)`: a malformed percent escape `s`. -/
  | EscapeError (s : GoString)
  /-- Error produced outside this package (transport, JSON decoding, URL parsing). -/
  | foreign (code : Nat)
  deriving DecidableEq, Repr

deriving instance DecidableEq for Except

/-! ## `net/url`: query unescaping and query parsing -/

/-- Go `ishex` of `net/url`. -/
def ishex (c : Char) : Bool :=
  ('0' ≤ c && c ≤ '9') || ('a' ≤ c && c ≤ 'f') || ('A' ≤ c && c ≤ 'F')

/-- Go `unhex` of `net/url`. -/
def unhex (c : Char) : Nat :=
  if '0' ≤ c ∧ c ≤ '9' then c.toNat - 48
  else if 'a' ≤ c ∧ c ≤ 'f' then c.toNat - 97 + 10
  else if 'A' ≤ c ∧ c ≤ 'F' then c.toNat - 65 + 10
  else 0

/-- First loop of `unescape` (mode `encodeQueryComponent`): the malformed escape the
scan stops at, cut to three bytes, or `none` when every `%` starts `%XX`. -/
def unescapeCheck : GoString → Option GoString
  | [] => none
  | c :: rest =>
    if c = '%' then
      match rest with
      | h :: l :: rest2 => if ishex h && ishex l then unescapeCheck rest2 else some [c, h, l]
      | _ => some (c :: rest)
    else unescapeCheck rest

/-- Second loop of `unescape` (mode `encodeQueryComponent`): `%XX` becomes the byte
`XX`, `+` becomes a blank. On a text without `%` and `+` it returns the text, which
is what the early return of `unescape` gives. -/
def unescapeWrite : GoString → GoString
  | [] => []
  | c :: rest =>
    if c = '%' then
      match rest with
      | h :: l :: rest2 => Char.ofNat (unhex h * 16 + unhex l) :: unescapeWrite rest2
      | _ => []
    else if c = '+' then ' ' :: unescapeWrite rest
    else c :: unescapeWrite rest

/-- Go `url.QueryUnescape`. -/
def QueryUnescape (s : GoString) : Except GoError GoString :=
  match unescapeCheck s with
  | some bad => .error (.EscapeError bad)
  | none => .ok (unescapeWrite s)

/-- Go `map[string][]string` (`url.Values`, `http.Header`) as an association list;
a key that is absent has the value `nil`, the empty list. -/
abbrev Values := List (GoString × List GoString)

/-- Map lookup `m[key]`. -/
def Values.get : Values → GoString → List GoString
  | [], _ => []
  | (k, vs) :: m, key => if k = key then vs else Values.get m key

/-- Map update `m[key] = append(m[key], value)`. -/
def Values.append : Values → GoString → GoString → Values
  | [], key, value => [(key, [value])]
  | (k, vs) :: m, key, value =>
    if k = key then (k, vs ++ [value]) :: m else (k, vs) :: Values.append m key value

/-- One turn of the loop of `parseQuery` on the piece `key` cut off before `&`. -/
def parseQueryStep (m : Values) (err : Option GoError) (key : GoString) :
    Values × Option GoError :=
  if Contains key ';' then
    (m, some (.errorString "invalid semicolon separator in query".toList))
  else if key = [] then (m, err)
  else
    let (k, v, _) := Cut key '='
    match QueryUnescape k with
    | .error err1 => (m, if err = none then some err1 else err)
    | .ok k1 =>
      match QueryUnescape v with
      | .error err1 => (m, if err = none then some err1 else err)
      | .ok v1 => (Values.append m k1 v1, err)

/-- Loop `for query != ""` of `parseQuery`; every turn removes at least one byte of
`query`, so `query.length` turns are enough. -/
def parseQuery : Nat → Values → Option GoError → GoString → Values × Option GoError
  | 0, m, err, _ => (m, err)
  | fuel + 1, m, err, query =>
    if query = [] then (m, err)
    else
      let (key, rest, _) := Cut query '&'
      let (m1, err1) := parseQueryStep m err key
      parseQuery fuel m1 err1 rest

/-- Go `url.ParseQuery`: the values found and the first error, if any. -/
def ParseQuery (query : GoString) : Values × Option GoError :=
  parseQuery query.length [] none query

/-! ## `fmt`: a format string without operands

`fmt.Errorf(format)` and `fmt.Sprintf(format)` called with no operand run
`doPrintf(format, nil)`: text outside directives is copied, `%%` becomes `%`, and every
other directive is replaced by an error marker, since there is no operand to print. -/

/-- Flag bytes skipped by the first loop of a directive in `doPrintf`. -/
def isFlag (c : Char) : Bool := c = '#' || c = '0' || c = '+' || c = '-' || c = ' '

/-- Go `tooLarge` of `fmt`. -/
def tooLarge (x : Nat) : Bool := decide (x > 1000000)

/-- Loop of `parsenum` over the bytes `s[newi:end]`: the number read so far, whether a
digit was seen, and the bytes left. On overflow the position jumps to `end`. -/
def parsenumLoop : Nat → Bool → GoString → Nat × Bool × GoString
  | num, isnum, [] => (num, isnum, [])
  | num, isnum, c :: r =>
    if '0' ≤ c ∧ c ≤ '9' then
      if tooLarge num then (0, false, [])
      else parsenumLoop (num * 10 + (c.toNat - 48)) true r
    else (num, isnum, c :: r)

/-- Go `parsenum(s, start, end)` of `fmt`, on the bytes `s[start:end]`. -/
def parsenum (r : GoString) : Nat × Bool × GoString := parsenumLoop 0 false r

/-- Go `parseArgNumber` of `fmt` on a text that starts with `[`: the number of bytes
the index takes and whether it is well formed. The index itself is not returned:
without operands no index is in range. -/
def parseArgNumber (f : GoString) : Nat × Bool :=
  if f.length < 3 then (1, false)
  else
    let inner := (f.drop 1).takeWhile (fun c => c != ']')
    if inner.length + 1 < f.length then
      let (_, ok, rest) := parsenum inner
      if !ok || rest ≠ [] then (inner.length + 2, false) else (inner.length + 2, true)
    else (1, false)

/-- Go `(*pp).argNumber` with no operands: the text after the index, whether an index
was found, and `goodArgNum` afterwards. -/
def argNumber (f : GoString) (goodArgNum : Bool) : GoString × Bool × Bool :=
  match f with
  | c :: _ =>
    if c = '[' then
      let (wid, ok) := parseArgNumber f
      (f.drop wid, ok, false)
    else (f, false, goodArgNum)
  | [] => (f, false, goodArgNum)

/-- Whether `lo ≤ c ≤ hi` for the byte `c`, which must be present. -/
def byteIn (c : Option Char) (lo hi : Nat) : Bool :=
  match c with
  | some b => decide (lo ≤ b.toNat) && decide (b.toNat ≤ hi)
  | none => false

/-- Size of the UTF-8 sequence that starts the non-empty text `f`, as
`utf8.DecodeRuneInString` finds it; `0` stands for an invalid sequence, which decodes
to `RuneError` with size 1. -/
def runeLen (f : GoString) : Nat :=
  let s0 := (f.head?.map Char.toNat).getD 0
  let s1 := f.get? 1
  let s2 := f.get? 2
  let s3 := f.get? 3
  if s0 < 0x80 then 1
  else if 0xC2 ≤ s0 ∧ s0 ≤ 0xDF then (if byteIn s1 0x80 0xBF then 2 else 0)
  else if 0xE0 ≤ s0 ∧ s0 ≤ 0xEF then
    let lo := if s0 = 0xE0 then 0xA0 else 0x80
    let hi := if s0 = 0xED then 0x9F else 0xBF
    if byteIn s1 lo hi && byteIn s2 0x80 0xBF then 3 else 0
  else if 0xF0 ≤ s0 ∧ s0 ≤ 0xF4 then
    let lo := if s0 = 0xF0 then 0x90 else 0x80
    let hi := if s0 = 0xF4 then 0x8F else 0xBF
    if byteIn s1 lo hi && byteIn s2 0x80 0xBF && byteIn s3 0x80 0xBF then 4 else 0
  else 0

/-- Verb of a directive: the bytes `writeRune(verb)` puts out and the text after the
verb. An invalid sequence is one byte long and is written as U+FFFD. -/
def readVerb (f : GoString) : GoString × GoString :=
  match runeLen f with
  | 0 => ([Char.ofNat 0xEF, Char.ofNat 0xBF, Char.ofNat 0xBD], f.drop 1)
  | n => (f.take n, f.drop n)

/-- Width of a directive of `doPrintf` with no operands: what is written, the text
left, `afterIndex` and `goodArgNum` afterwards. A `*` finds no operand to take the
width from. -/
def width (f : GoString) (afterIndex goodArgNum : Bool) :
    GoString × GoString × Bool × Bool :=
  match f with
  | '*' :: r => ("%!(BADWIDTH)".toList, r, false, goodArgNum)
  | _ =>
    let (_, widPresent, r) := parsenum f
    ([], r, afterIndex, goodArgNum && !(afterIndex && widPresent))

/-- Precision of a directive of `doPrintf` with no operands: what is written, the
text left, `afterIndex` and `goodArgNum` afterwards. The test of `doPrintf` is
`i+1 < end && format[i] == '.'`: a `.` that ends the format is no precision, it is
left to be read as the verb. -/
def precision (f : GoString) (afterIndex goodArgNum : Bool) :
    GoString × GoString × Bool × Bool :=
  match f with
  | '.' :: c :: r =>
    let (r1, afterIndex1, good1) := argNumber (c :: r) (goodArgNum && !afterIndex)
    match r1 with
    | '*' :: r2 => ("%!(BADPREC)".toList, r2, false, good1)
    | _ =>
      let (_, _, r2) := parsenum r1
      ([], r2, afterIndex1, good1)
  | _ => ([], f, afterIndex, goodArgNum)

/-- One directive of `doPrintf` with no operands, on the text after its `%`: what is
written and the text left (`none` after `%!(NOVERB)`, which ends the loop). -/
def directive (f : GoString) : GoString × Option GoString :=
  let f1 := f.dropWhile isFlag
  let (f2, afterIndex2, good2) := argNumber f1 true
  let (out3, f3, afterIndex3, good3) := width f2 afterIndex2 good2
  let (out4, f4, afterIndex4, good4) := precision f3 afterIndex3 good3
  let (f5, _, good5) :=
    if afterIndex4 then (f4, afterIndex4, good4) else argNumber f4 good4
  match f5 with
  | [] => (out3 ++ out4 ++ "%!(NOVERB)".toList, none)
  | c :: _ =>
    let (verb, rest) := readVerb f5
    if c = '%' then (out3 ++ out4 ++ ['%'], some rest)
    else if !good5 then (out3 ++ out4 ++ "%!".toList ++ verb ++ "(BADINDEX)".toList, some rest)
    else (out3 ++ out4 ++ "%!".toList ++ verb ++ "(MISSING)".toList, some rest)

/-- Loop of `doPrintf(format, nil)`; every turn but the last removes a `%`, so
`format.length + 1` turns are enough. -/
def doPrintf : Nat → GoString → GoString
  | 0, _ => []
  | fuel + 1, format =>
    let text := format.takeWhile (fun c => c != '%')
    match format.dropWhile (fun c => c != '%') with
    | [] => text
    | _ :: f =>
      match directive f with
      | (out, none) => text ++ out
      | (out, some rest) => text ++ out ++ doPrintf fuel rest

/-- Go `fmt.Sprintf(format)` with no operands. -/
def Sprintf0 (format : GoString) : GoString := doPrintf (format.length + 1) format

/-- Go `fmt.Errorf(format)` with no operands: no `%w` can wrap anything, so the value
is `errors.New` of the formatted text. -/
def Errorf0 (format : GoString) : GoError := .errorString (Sprintf0 format)

/-- Go `%v` of a `[]string`: the elements between brackets, separated by blanks. -/
def fmtStrings (vs : List GoString) : GoString :=
  '[' :: ([' '].intercalate vs) ++ [']']

/-! ## `net/http`: headers and requests -/

/-- Go `validHeaderFieldByte` of `net/textproto`: the token bytes of RFC 7230, that is
digits, letters and the bytes with codes 33, 35 to 39, 42, 43, 45, 46, 94 to 96, 124, 126. -/
def validHeaderFieldByte (c : Char) : Bool :=
  let n := c.toNat
  (decide (48 ≤ n) && decide (n ≤ 57)) || (decide (65 ≤ n) && decide (n ≤ 90)) ||
  (decide (97 ≤ n) && decide (n ≤ 122)) ||
  [33, 35, 36, 37, 38, 39, 42, 43, 45, 46, 94, 95, 96, 124, 126].contains n

/-- Second loop of `canonicalMIMEHeaderKey`: upper case for the first letter and
after each dash, lower case elsewhere. -/
def canonicalLoop : Bool → GoString → GoString
  | _, [] => []
  | upper, c :: s =>
    let c1 :=
      if upper && ('a' ≤ c && c ≤ 'z') then Char.ofNat (c.toNat - 32)
      else if !upper && ('A' ≤ c && c ≤ 'Z') then Char.ofNat (c.toNat + 32)
      else c
    c1 :: canonicalLoop (c1 == '-') s

/-- Go `textproto.CanonicalMIMEHeaderKey`: a key with a byte that is no token byte is
returned as it is, any other key is put in canonical case. -/
def CanonicalMIMEHeaderKey (s : GoString) : GoString :=
  if s.all validHeaderFieldByte then canonicalLoop true s else s

/-- Go `http.Header`. -/
abbrev Header := Values

/-- Go `http.Header.Add`: the value is appended to those of the canonical key. -/
def Header.Add (h : Header) (key value : GoString) : Header :=
  Values.append h (CanonicalMIMEHeaderKey key) value

/-- Go `http.Header.Values`: the values of the canonical key. -/
def Header.Values (h : Header) (key : GoString) : List GoString :=
  Values.get h (CanonicalMIMEHeaderKey key)

/-- JSON scalar values that occur in the bodies this package sends; a string is given
by the bytes of the text it denotes. -/
inductive JsonValue where
  | str (s : GoString)
  | num (n : Int)
  deriving DecidableEq, Repr

/-- JSON object: its members in order. -/
abbrev JsonObject := List (GoString × JsonValue)

/-- Body handed to `http.NewRequestWithContext`: the caller's `io.Reader` (`nil` or the
bytes it yields) or a `bytes.Buffer` holding a marshalled JSON document. -/
inductive Body where
  | reader (content : Option GoString)
  | buffer (document : JsonObject)
  deriving DecidableEq, Repr

/-- Go `http.Request`, the parts this package sets: method, target URL as given to
`http.NewRequestWithContext`, body and header. -/
structure HttpRequest where
  Method : GoString
  URL : GoString
  Body : Body
  Header : Header
  deriving DecidableEq, Repr

/-- Go `io.ReadCloser` returned as a response body: the bytes it yields until the end
of the stream or until reading fails, and the read error if it fails. -/
structure Stream where
  data : GoString
  readErr : Option GoError
  deriving DecidableEq, Repr

/-- Go `io.ReadAll`: the bytes read and the error that stopped the reading, if any. -/
def ReadAll (stream : Stream) : GoString × Option GoError := (stream.data, stream.readErr)

/-- Effects on the outside world, in the order they happen. -/
inductive Event where
  /-- Call of `http.DefaultClient.Do` with this request. -/
  | Do (request : HttpRequest)
  /-- Call of `io.ReadAll` on this stream. -/
  | ReadAll (stream : Stream)
  /-- Call of `json.Unmarshal` on these bytes. -/
  | Unmarshal (b : GoString)
  /-- Call of `Close` on this stream. -/
  | Close (stream : Stream)
  deriving DecidableEq, Repr

/-! ## Data model of the package -/

/-- Go `Credentials`. -/
structure Credentials where
  User : GoString
  ApiKey : GoString
  UnblockKey : GoString
  deriving DecidableEq, Repr

/-- Go `Client`. -/
structure Client where
  Server : GoString
  Token : GoString
  User : GoString
  AdminApiKey : GoString
  UnblockKey : GoString
  deriving DecidableEq, Repr

/-- Go `Request`; the embedded `Credentials` give it the fields `User`, `ApiKey` and
`UnblockKey`. `RequestBody` is the caller's `io.Reader`: `nil` or the bytes it yields.
`RequestHeader` lists the entries of the caller's header map in the order the `range`
loop of `DoStream` visits them, which Go leaves unspecified. -/
structure Request extends Credentials where
  DataverseServer : GoString
  Path : GoString
  Method : GoString
  RequestBody : Option GoString
  RequestHeader : Header
  Token : GoString
  deriving DecidableEq, Repr

/-- Modelled from the spec: the declaration of `SignedUrlResponse` is not among the
sources; the spec gives the envelope `{status, message, data:{signedUrl}}` and
`signUrl` reads `res.Status`, `res.Message` and `res.Data.SignedUrl`. This is the
inner `Data` part. -/
structure SignedUrlData where
  SignedUrl : GoString
  deriving DecidableEq, Repr

/-- Modelled from the spec: the declaration of `SignedUrlResponse` is not among the
sources; see `SignedUrlData`. -/
structure SignedUrlResponse where
  Status : GoString
  Message : GoString
  Data : SignedUrlData
  deriving DecidableEq, Repr

/-- Modelled from the spec: the declaration of `SigningRequest` is not among the
sources. `signingRequest` fills it by position with a string, the number 500 and two
strings; the spec names the members `{url, expirySeconds, user, httpMethod}`. -/
structure SigningRequest where
  url : GoString
  expirySeconds : Int
  user : GoString
  httpMethod : GoString
  deriving DecidableEq, Repr

/-- Loop of the string encoder of `encoding/json` over the bytes left, `skip` of which
continue a UTF-8 sequence already accepted: a byte that starts no valid sequence
(`utf8.DecodeRuneInString` gives `RuneError` with size 1) is written as U+FFFD, every
other byte as it is. -/
def validUTF8Loop : Nat → GoString → GoString
  | _, [] => []
  | skip + 1, c :: s => c :: validUTF8Loop skip s
  | 0, c :: s =>
    match runeLen (c :: s) with
    | 0 => Char.ofNat 0xEF :: Char.ofNat 0xBF :: Char.ofNat 0xBD :: validUTF8Loop 0 s
    | n + 1 => c :: validUTF8Loop n s

/-- String value that `json.Marshal` writes for a Go string: the string with every
invalid UTF-8 byte replaced by U+FFFD. -/
def toValidUTF8 (s : GoString) : GoString := validUTF8Loop 0 s

/-- Modelled from the spec: `json.Marshal` of a `SigningRequest`, with the member
names the spec gives for the body, `{url, expirySeconds, user, httpMethod}`. String
members are written as `json.Marshal` writes strings, see `toValidUTF8`. -/
def Marshal (r : SigningRequest) : JsonObject :=
  [("url".toList, .str (toValidUTF8 r.url)), ("expirySeconds".toList, .num r.expirySeconds),
   ("user".toList, .str (toValidUTF8 r.user)),
   ("httpMethod".toList, .str (toValidUTF8 r.httpMethod))]

/-- Go `url.URL`, the one field `signUrl` reads. -/
structure URL where
  RawQuery : GoString
  deriving DecidableEq, Repr

/-- Outside world of one call.
* `requestError method url` is the error of `http.NewRequestWithContext` (an invalid
  method, a URL that `url.Parse` rejects), `none` when it builds the request.
* `Do` is `http.DefaultClient.Do`: the body of the response or a transport error.
* `Unmarshal b res` is `json.Unmarshal(b, &res)` for a `SignedUrlResponse`: the
  destination afterwards and the error.
* `Parse` is `url.Parse`. -/
structure Env where
  requestError : GoString → GoString → Option GoError
  Do : HttpRequest → Except GoError Stream
  Unmarshal : GoString → SignedUrlResponse → SignedUrlResponse × Option GoError
  Parse : GoString → Except GoError URL

/-- Go `http.NewRequestWithContext`: an empty method stands for GET; the request has
an empty header. -/
def NewRequestWithContext (env : Env) (method url : GoString) (body : Body) :
    Except GoError HttpRequest :=
  let method := if method = [] then "GET".toList else method
  match env.requestError method url with
  | some err => .error err
  | none => .ok { Method := method, URL := url, Body := body, Header := [] }

/-! ## The package -/

/-- Go `NewClient`. -/
def NewClient (server : GoString) : Client :=
  { Server := server, Token := [], User := [], AdminApiKey := [], UnblockKey := [] }

/-- Go `NewUrlSigningClient`. -/
def NewUrlSigningClient (server user adminApiKey unblockKey : GoString) : Client :=
  { Server := server, Token := [], User := user, AdminApiKey := adminApiKey,
    UnblockKey := unblockKey }

/-- Go `NewTokenAccessClient`. -/
def NewTokenAccessClient (server token : GoString) : Client :=
  { Server := server, Token := token, User := [], AdminApiKey := [], UnblockKey := [] }

/-- Go `(*Client).getCredentials`: the named result `res` starts as the zero value. -/
def Client.getCredentials (client : Client) : Credentials :=
  if client.AdminApiKey ≠ [] ∧ client.UnblockKey ≠ [] ∧ client.User ≠ [] then
    { User := client.User, ApiKey := client.AdminApiKey, UnblockKey := client.UnblockKey }
  else
    { User := [], ApiKey := [], UnblockKey := [] }

/-- Go `(*Client).NewRequest`. -/
def Client.NewRequest (client : Client) (path method : GoString) (body : Option GoString)
    (header : Header) : Request :=
  { DataverseServer := client.Server
    Path := path
    Method := method
    RequestBody := body
    RequestHeader := header
    Token := client.Token
    toCredentials := client.getCredentials }

/-- Go `JsonContentHeader`. -/
def JsonContentHeader : Header :=
  Header.Add [] "Content-Type".toList "application/json".toList

/-- Go `unmarshalAndCloseStream`, for a destination of type `α` and `json.Unmarshal`
into it: the error returned, the destination afterwards, and the effects. The
deferred `stream.Close()` runs when the body returns, whichever `return` it takes.
The destination is what `json.Unmarshal(b, &res)` leaves in the local interface
variable `res`: the caller sees it through a pointer held in `res`, while a map passed
by value is replaced in the local variable only. -/
def unmarshalAndCloseStream {α : Type} (Unmarshal : GoString → α → α × Option GoError)
    (stream : Stream) (res : α) : (Option GoError × α) × List Event :=
  let body : (Option GoError × α) × List Event :=
    match ReadAll stream with
    | (_, some err) => ((some err, res), [.ReadAll stream])
    | (b, none) =>
      let (res1, err1) := Unmarshal b res
      ((err1, res1), [.ReadAll stream, .Unmarshal b])
  (body.1, body.2 ++ [.Close stream])

/-- Go `signingRequest`. The error of `http.NewRequestWithContext` is dropped; when
there is one the request is `nil` and `request.Header.Add` dereferences it: the
function panics, which is the result `none`. -/
def signingRequest (env : Env) (req : Request) (u : GoString) : Option HttpRequest :=
  let jsonString := Marshal { url := u, expirySeconds := 500, user := req.User,
                              httpMethod := req.Method }
  let signingServiceUrl :=
    req.DataverseServer ++ "/api/v1/admin/requestSignedUrl?unblock-key=".toList ++ req.UnblockKey
  let body := Body.buffer jsonString
  match NewRequestWithContext env "POST".toList signingServiceUrl body with
  | .error _ => none
  | .ok request =>
    let h1 := Header.Add request.Header "X-Dataverse-key".toList req.ApiKey
    let h2 := Header.Add h1 "Content-Type".toList "application/json".toList
    some { request with Header := h2 }

/-- Go `signUrl`: the triple `(url, addTokenToHeader, err)` it returns, or `none` when
`signingRequest` panics, and the effects. -/
def signUrl (env : Env) (req : Request) :
    Option (GoString × Bool × Option GoError) × List Event :=
  let u :=
    if HasPrefix req.Path req.DataverseServer then req.Path
    else req.DataverseServer ++ req.Path
  if req.ApiKey = [] ∨ req.UnblockKey = [] ∨ req.User = [] then
    (some (u, true, none), [])
  else
    match QueryUnescape u with
    | .error err => (some ([], false, some err), [])
    | .ok unescaped =>
      match signingRequest env req unescaped with
      | none => (none, [])
      | some request =>
        match env.Do request with
        | .error err => (some ([], false, some err), [.Do request])
        | .ok respBody =>
          let res0 : SignedUrlResponse := { Status := [], Message := [], Data := { SignedUrl := [] } }
          match unmarshalAndCloseStream env.Unmarshal respBody res0 with
          | ((some err, _), ev) => (some ([], false, some err), .Do request :: ev)
          | ((none, res), ev) =>
            if res.Status ≠ "OK".toList then
              (some ([], false, some (Errorf0 res.Message)), .Do request :: ev)
            else
              match env.Parse res.Data.SignedUrl with
              | .error err => (some ([], false, some err), .Do request :: ev)
              | .ok parsed =>
                match ParseQuery parsed.RawQuery with
                | (_, some err) => (some ([], false, some err), .Do request :: ev)
                | (q, none) =>
                  let user := Values.get q "user".toList
                  let until_ := Values.get q "until".toList
                  let method := Values.get q "method".toList
                  let token := Values.get q "token".toList
                  if user.length ≠ 1 ∨ user.headD [] ≠ req.User then
                    (some ([], false,
                      some (.errorString ("unknown user: ".toList ++ req.User))),
                     .Do request :: ev)
                  else if until_.length ≠ 1 ∨ method.length ≠ 1 ∨ token.length ≠ 1 then
                    (some ([], false,
                      some (.errorString ("missing one of signature fields: until=".toList ++
                        fmtStrings until_ ++ ", method=".toList ++ fmtStrings method ++
                        ", token=".toList ++ fmtStrings token))),
                     .Do request :: ev)
                  else
                    let qm := if Contains u '?' then "&".toList else "?".toList
                    let signedUrl := u ++ qm ++ "until=".toList ++ until_.headD [] ++
                      "&user=".toList ++ user.headD [] ++ "&method=".toList ++
                      method.headD [] ++ "&token=".toList ++ token.headD []
                    (some (signedUrl, false, none), .Do request :: ev)

/-- Go `DoStream`: the stream or the error it returns, `none` when `signingRequest`
panics, and the effects. -/
def DoStream (env : Env) (req : Request) : Option (Except GoError Stream) × List Event :=
  match signUrl env req with
  | (none, ev) => (none, ev)
  | (some (_, _, some err), ev) => (some (.error err), ev)
  | (some (u, addTokenToHeader, none), ev) =>
    match NewRequestWithContext env req.Method u (.reader req.RequestBody) with
    | .error err => (some (.error err), ev)
    | .ok request =>
      let h1 :=
        if addTokenToHeader && decide (req.Token ≠ []) then
          Header.Add request.Header "X-Dataverse-key".toList req.Token
        else request.Header
      let h2 := req.RequestHeader.foldl
        (fun h kv => kv.2.foldl (fun h s => Header.Add h kv.1 s) h) h1
      let request := { request with Header := h2 }
      match env.Do request with
      | .error err => (some (.error err), ev ++ [.Do request])
      | .ok response => (some (.ok response), ev ++ [.Do request])

/-- Go `Do`, for a destination of type `α` and `json.Unmarshal` into it. -/
def Do {α : Type} (env : Env) (Unmarshal : GoString → α → α × Option GoError)
    (req : Request) (res : α) : Option (Option GoError × α) × List Event :=
  match DoStream env req with
  | (none, ev) => (none, ev)
  | (some (.error err), ev) => (some (some err, res), ev)
  | (some (.ok stream), ev) =>
    let (r, ev1) := unmarshalAndCloseStream Unmarshal stream res
    (some r, ev ++ ev1)

/-! ## Sample inputs -/

/-- Signing service double: every request can be built and is answered with a body
that decodes to `res`; `Parse` splits at the first `?`, which is what `url.Parse` does
with the fragment-free URLs used below. -/
def mockEnv (res : SignedUrlResponse) : Env :=
  { requestError := fun _ _ => none
    Do := fun _ => .ok { data := [], readErr := none }
    Unmarshal := fun _ _ => (res, none)
    Parse := fun s => .ok { RawQuery := (Cut s '?').2.1 } }

/-- Answer of the signing service with status `OK` and the given signed URL. -/
def okResponse (signedUrl : String) : SignedUrlResponse :=
  { Status := "OK".toList, Message := [], Data := { SignedUrl := signedUrl.toList } }

/-- Request of the user `alice` with complete signing credentials. -/
def aliceRequest : Request :=
  (NewUrlSigningClient "https://demo.dataverse.org".toList "alice".toList
    "admin-api-key".toList "unblock-key".toList).NewRequest
    "/api/v1/access/datafile/7".toList "GET".toList none []

/-- Request of a client that holds a token and no signing credentials. -/
def tokenRequest : Request :=
  (NewTokenAccessClient "https://demo.dataverse.org".toList "your-api-token".toList).NewRequest
    "/api/v1/access/datafile/%zz".toList "GET".toList none
    [("content-type".toList, ["application/json".toList])]

/-- Signing service double that builds requests as `net/http` does for a URL with an
ASCII control byte: `url.Parse` rejects such a URL (`invalid control character in
URL`), so `http.NewRequestWithContext` returns an error. Other URLs are accepted. -/
def strictEnv (res : SignedUrlResponse) : Env :=
  { mockEnv res with
    requestError := fun _ url =>
      if url.any (fun c => decide (c.toNat < 32) || decide (c.toNat = 127)) then
        some (.foreign 1)
      else none }

/-- Request of a client whose server base ends in a line feed, as a base read from a
file can. -/
def lineFeedRequest : Request :=
  (NewUrlSigningClient "https://demo.dataverse.org\n".toList "alice".toList
    "admin-api-key".toList "unblock-key".toList).NewRequest
    "/api/v1/access/datafile/7".toList "GET".toList none []

/-- Request of a token client for a well-formed path, with one header of its own. -/
def headerRequest : Request :=
  (NewTokenAccessClient "https://demo.dataverse.org".toList "your-api-token".toList).NewRequest
    "/api/v1/access/datafile/7".toList "GET".toList none
    [("content-type".toList, ["application/json".toList])]

/-! ## Theorems -/

/-! ### The library models on sample inputs -/

/-- Query unescaping: `%20` and `+` are blanks. -/
theorem QueryUnescape_sample :
    QueryUnescape "a%20b+c".toList = .ok "a b c".toList := by decide

/-- Query unescaping: a cut-off escape is an `EscapeError`. -/
theorem QueryUnescape_malformed :
    QueryUnescape "/datafile/%zz".toList = .error (.EscapeError "%zz".toList) ∧
    QueryUnescape "a%2".toList = .error (.EscapeError "%2".toList) := by decide

/-- Query parsing: pairs in order, repeated keys collect their values, a semicolon is
an error. -/
theorem ParseQuery_sample :
    ParseQuery "user=alice&until=2099-01-01&method=GET&token=abc123".toList =
      ([("user".toList, ["alice".toList]), ("until".toList, ["2099-01-01".toList]),
        ("method".toList, ["GET".toList]), ("token".toList, ["abc123".toList])], none) ∧
    ParseQuery "a=1&&b=%41&a=2&c".toList =
      ([("a".toList, ["1".toList, "2".toList]), ("b".toList, ["A".toList]),
        ("c".toList, [[]])], none) ∧
    ParseQuery "a=1;b=2&c=3".toList =
      ([("c".toList, ["3".toList])],
       some (.errorString "invalid semicolon separator in query".toList)) := by decide

/-- Formatting without operands: plain text is copied, `%%` is a percent sign, any
other directive becomes an error marker. -/
theorem Sprintf0_samples :
    Sprintf0 "quota exceeded".toList = "quota exceeded".toList ∧
    Sprintf0 "100%".toList = "100%!(NOVERB)".toList ∧
    Sprintf0 "50%% of %d".toList = "50% of %!d(MISSING)".toList ∧
    Sprintf0 "%[1]d %5.2f %[x".toList = "%!d(BADINDEX) %!f(MISSING) %!x(BADINDEX)".toList ∧
    Sprintf0 "%*d%.*d".toList = "%!(BADWIDTH)%!d(MISSING)%!(BADPREC)%!d(MISSING)".toList ∧
    Sprintf0 "disk 100% full".toList = "disk 100%!f(MISSING)ull".toList ∧
    Sprintf0 "%.".toList = "%!.(MISSING)".toList ∧
    Sprintf0 "%.x".toList = "%!x(MISSING)".toList := by decide

/-- Strings in a JSON body: ASCII text is kept, an invalid byte such as `0xFF` becomes
U+FFFD, a valid two-byte sequence is kept. -/
theorem toValidUTF8_samples :
    toValidUTF8 "https://demo.dataverse.org/a".toList = "https://demo.dataverse.org/a".toList ∧
    toValidUTF8 ['a', Char.ofNat 0xFF] =
      ['a', Char.ofNat 0xEF, Char.ofNat 0xBF, Char.ofNat 0xBD] ∧
    toValidUTF8 [Char.ofNat 0xC3, Char.ofNat 0xA9, 'z'] =
      [Char.ofNat 0xC3, Char.ofNat 0xA9, 'z'] ∧
    toValidUTF8 [Char.ofNat 0xC3, 'z'] =
      [Char.ofNat 0xEF, Char.ofNat 0xBF, Char.ofNat 0xBD, 'z'] := by decide

/-- Strings in a JSON body: a text of ASCII bytes is written as it is. -/
theorem toValidUTF8_ascii (s : GoString) (h : ∀ c ∈ s, c.toNat < 128) :
    toValidUTF8 s = s := by
  unfold toValidUTF8
  induction s with
  | nil => rfl
  | cons c s ih =>
    have hc : c.toNat < 128 := h c (List.mem_cons_self _ _)
    have hr : runeLen (c :: s) = 1 := by
      simp [runeLen, hc]
    simp only [validUTF8Loop, hr]
    rw [ih (fun d hd => h d (List.mem_cons_of_mem _ hd))]

/-- Rendering of a string slice by `%v`. -/
theorem fmtStrings_samples :
    fmtStrings ["a".toList, "b".toList] = "[a b]".toList ∧ fmtStrings [] = "[]".toList := by
  decide

/-- Canonical header names. -/
theorem CanonicalMIMEHeaderKey_samples :
    CanonicalMIMEHeaderKey "X-Dataverse-key".toList = "X-Dataverse-Key".toList ∧
    CanonicalMIMEHeaderKey "content-type".toList = "Content-Type".toList ∧
    CanonicalMIMEHeaderKey "my header".toList = "my header".toList := by decide

/-! ### The loops with fuel run to their end -/

/-- Text after a separator is shorter than the text that was cut. -/
theorem Cut_rest_length (s : GoString) (sep : Char) (h : s ≠ []) :
    (Cut s sep).2.1.length < s.length := by
  unfold Cut
  split
  · simpa using List.length_pos.mpr h
  · rename_i x after heq
    have h1 : (s.dropWhile (fun c => c != sep)).length ≤ s.length :=
      (List.dropWhile_sublist _).length_le
    rw [heq] at h1
    simp at h1
    simpa using h1

/-- Fuel of `parseQuery`: with `query.length` turns or more the loop runs to its end,
so more fuel does not change the result. -/
theorem parseQuery_fuel (n : Nat) : ∀ (fuel : Nat) (m : Values) (err : Option GoError)
    (query : GoString), query.length ≤ n → query.length ≤ fuel →
    parseQuery fuel m err query = parseQuery query.length m err query := by
  induction n with
  | zero =>
    intro fuel m err query hn _
    have hq : query = [] := List.length_eq_zero.mp (Nat.le_zero.mp hn)
    subst hq
    cases fuel <;> simp [parseQuery]
  | succ n ih =>
    intro fuel m err query hn hf
    cases query with
    | nil => cases fuel <;> simp [parseQuery]
    | cons c rest =>
      have hlt := Cut_rest_length (c :: rest) '&' (by simp)
      cases fuel with
      | zero => simp at hf
      | succ fuel =>
        rcases hcut : Cut (c :: rest) '&' with ⟨key, rest1, found⟩
        rw [hcut] at hlt
        rcases hstep : parseQueryStep m err key with ⟨m1, err1⟩
        have e1 : ∀ k, parseQuery (k + 1) m err (c :: rest) = parseQuery k m1 err1 rest1 := by
          intro k
          simp only [parseQuery, hcut, hstep]
          rw [if_neg (by simp)]
        simp only [List.length_cons] at hlt hn hf ⊢
        rw [e1 fuel, e1 rest.length]
        rw [ih fuel m1 err1 rest1 (by omega) (by omega),
          ih rest.length m1 err1 rest1 (by omega) (by omega)]

/-- Text left by `parsenum` is no longer than the text read. -/
theorem parsenumLoop_length (r : GoString) : ∀ (num : Nat) (isnum : Bool),
    (parsenumLoop num isnum r).2.2.length ≤ r.length := by
  induction r with
  | nil => intro num isnum; simp [parsenumLoop]
  | cons c r ih =>
    intro num isnum
    unfold parsenumLoop
    split
    · split
      · simp
      · exact Nat.le_succ_of_le (ih _ _)
    · simp

/-- Text left by `argNumber` is no longer than the text read. -/
theorem argNumber_length (f : GoString) (g : Bool) : (argNumber f g).1.length ≤ f.length := by
  unfold argNumber
  split
  · split
    · simp
    · simp
  · simp


/-- Text left by `width` is no longer than the text read. -/
theorem width_length (f : GoString) (a g : Bool) : (width f a g).2.1.length ≤ f.length := by
  unfold width
  split
  · simp
  · exact parsenumLoop_length f 0 false

/-- Text left by `precision` is no longer than the text read. -/
theorem precision_length (f : GoString) (a g : Bool) :
    (precision f a g).2.1.length ≤ f.length := by
  unfold precision
  split
  · rename_i c r
    have h1 := argNumber_length (c :: r) (g && !a)
    rcases h : argNumber (c :: r) (g && !a) with ⟨r1, a1, g1⟩
    rw [h] at h1
    dsimp only at h1 ⊢
    split
    · simp at h1 ⊢
      omega
    · have h2 := parsenumLoop_length r1 0 false
      simp only [List.length_cons]
      exact Nat.le_succ_of_le (Nat.le_trans h2 h1)
  · simp

/-- Verb of a directive takes at least one byte. -/
theorem readVerb_length (f : GoString) (h : f ≠ []) : (readVerb f).2.length < f.length := by
  have hpos : 0 < f.length := List.length_pos.mpr h
  unfold readVerb
  split
  · simp
    omega
  · rename_i n hn
    simp
    have : runeLen f ≠ 0 := hn
    omega

/-- Directive takes at least one byte after its `%`. -/
theorem directive_length (f out rest : GoString) (h : directive f = (out, some rest)) :
    rest.length < f.length := by
  unfold directive at h
  have h1 : (f.dropWhile isFlag).length ≤ f.length := (List.dropWhile_sublist _).length_le
  have h2 := argNumber_length (f.dropWhile isFlag) true
  rcases e2 : argNumber (f.dropWhile isFlag) true with ⟨f2, a2, g2⟩
  rw [e2] at h2
  have h3 := width_length f2 a2 g2
  rcases e3 : width f2 a2 g2 with ⟨o3, f3, a3, g3⟩
  rw [e3] at h3
  have h4 := precision_length f3 a3 g3
  rcases e4 : precision f3 a3 g3 with ⟨o4, f4, a4, g4⟩
  rw [e4] at h4
  have h5 := argNumber_length f4 g4
  rcases e5 : argNumber f4 g4 with ⟨f5, a5, g5⟩
  rw [e5] at h5
  simp only [e2, e3, e4, e5] at h
  dsimp only at h2 h3 h4 h5
  cases a4
  · simp only [Bool.false_eq_true, if_false] at h
    cases f5 with
    | nil => simp at h
    | cons c r =>
      have h6 := readVerb_length (c :: r) (by simp)
      rcases e6 : readVerb (c :: r) with ⟨verb, rest1⟩
      rw [e6] at h6
      simp only [e6] at h
      have : rest = rest1 := by
        split at h
        · simp at h; exact h.2.symm
        · split at h <;> (simp at h; exact h.2.symm)
      subst this
      dsimp only at h6
      omega
  · simp only [if_true] at h
    cases f4 with
    | nil => simp at h
    | cons c r =>
      have h6 := readVerb_length (c :: r) (by simp)
      rcases e6 : readVerb (c :: r) with ⟨verb, rest1⟩
      rw [e6] at h6
      simp only [e6] at h
      have : rest = rest1 := by
        split at h
        · simp at h; exact h.2.symm
        · split at h <;> (simp at h; exact h.2.symm)
      subst this
      dsimp only at h6
      omega


/-- Fuel of `doPrintf`: with `format.length + 1` turns or more the loop runs to its end,
so more fuel does not change the result. -/
theorem doPrintf_fuel (n : Nat) : ∀ (fuel : Nat) (format : GoString),
    format.length ≤ n → format.length + 1 ≤ fuel →
    doPrintf fuel format = doPrintf (format.length + 1) format := by
  induction n with
  | zero =>
    intro fuel format hn hf
    have hq : format = [] := List.length_eq_zero.mp (Nat.le_zero.mp hn)
    subst hq
    cases fuel with
    | zero => simp at hf
    | succ k => simp [doPrintf]
  | succ n ih =>
    intro fuel format hn hf
    cases fuel with
    | zero => simp at hf
    | succ k =>
      have e1 : ∀ j, doPrintf (j + 1) format =
          match format.dropWhile (fun c => c != '%') with
          | [] => format.takeWhile (fun c => c != '%')
          | _ :: f =>
            match directive f with
            | (out, none) => format.takeWhile (fun c => c != '%') ++ out
            | (out, some rest) =>
              format.takeWhile (fun c => c != '%') ++ out ++ doPrintf j rest := by
        intro j
        rfl
      rw [e1 k, e1 format.length]
      have hd : (format.dropWhile (fun c => c != '%')).length ≤ format.length :=
        (List.dropWhile_sublist _).length_le
      rcases hdw : format.dropWhile (fun c => c != '%') with _ | ⟨c, f⟩
      · rfl
      · rw [hdw] at hd
        simp only [List.length_cons] at hd
        rcases hdir : directive f with ⟨out, _ | rest⟩
        · simp only [hdir]
        · have hl := directive_length f out rest hdir
          simp only [hdir]
          rw [ih k rest (by omega) (by omega), ih format.length rest (by omega) (by omega)]

/-- Formatting with any larger fuel is `Sprintf0`. -/
theorem Sprintf0_fuel (fuel : Nat) (format : GoString) (h : format.length + 1 ≤ fuel) :
    doPrintf fuel format = Sprintf0 format :=
  doPrintf_fuel format.length fuel format (Nat.le_refl _) h

/-! ### The claims -/

/-- C1. When at least one of `ApiKey`, `UnblockKey`, `User` of the request is empty,
`signUrl` returns the unsigned target URL with `addTokenToHeader = true` and a nil
error, and causes no effect at all: no request is sent to the signing endpoint. It
does not fail and does not panic, whatever the path is. -/
theorem signUrl_incomplete_credentials (env : Env) (req : Request)
    (h : req.ApiKey = [] ∨ req.UnblockKey = [] ∨ req.User = []) :
    signUrl env req =
      (some (if HasPrefix req.Path req.DataverseServer then req.Path
             else req.DataverseServer ++ req.Path, true, none), []) := by
  unfold signUrl
  simp only [if_pos h]

/-- Witness of C1: a token client asking for a path with a malformed escape. -/
theorem signUrl_incomplete_credentials_witness :
    (tokenRequest.ApiKey = [] ∨ tokenRequest.UnblockKey = [] ∨ tokenRequest.User = []) ∧
    signUrl (mockEnv (okResponse "")) tokenRequest =
      (some ("https://demo.dataverse.org/api/v1/access/datafile/%zz".toList, true, none), []) :=
  ⟨by decide,
   (signUrl_incomplete_credentials (mockEnv (okResponse "")) tokenRequest (by decide)).trans
     (by decide)⟩

/-- C7. `NewRequest` copies server, path, method, body, header and token, and embeds the
credentials of `getCredentials`: the triple of the client when user, admin API key
and unblock key are all non-empty, the empty credentials otherwise. The credentials
of a request are never partially filled. -/
theorem NewRequest_credentials (client : Client) (path method : GoString)
    (body : Option GoString) (header : Header) :
    (client.NewRequest path method body header).DataverseServer = client.Server ∧
    (client.NewRequest path method body header).Path = path ∧
    (client.NewRequest path method body header).Method = method ∧
    (client.NewRequest path method body header).Token = client.Token ∧
    (client.NewRequest path method body header).RequestBody = body ∧
    (client.NewRequest path method body header).RequestHeader = header ∧
    (client.NewRequest path method body header).toCredentials =
      (if client.User ≠ [] ∧ client.AdminApiKey ≠ [] ∧ client.UnblockKey ≠ [] then
        { User := client.User, ApiKey := client.AdminApiKey, UnblockKey := client.UnblockKey }
       else { User := [], ApiKey := [], UnblockKey := [] }) ∧
    (((client.NewRequest path method body header).User = [] ∧
      (client.NewRequest path method body header).ApiKey = [] ∧
      (client.NewRequest path method body header).UnblockKey = []) ∨
     ((client.NewRequest path method body header).User ≠ [] ∧
      (client.NewRequest path method body header).ApiKey ≠ [] ∧
      (client.NewRequest path method body header).UnblockKey ≠ [])) := by
  refine ⟨rfl, rfl, rfl, rfl, rfl, rfl, ?_, ?_⟩
  · simp only [Client.NewRequest, Client.getCredentials]
    by_cases h : client.AdminApiKey ≠ [] ∧ client.UnblockKey ≠ [] ∧ client.User ≠ []
    · rw [if_pos h, if_pos ⟨h.2.2, h.1, h.2.1⟩]
    · rw [if_neg h, if_neg (fun h2 => h ⟨h2.2.1, h2.2.2, h2.1⟩)]
  · simp only [Client.NewRequest, Client.getCredentials]
    by_cases h : client.AdminApiKey ≠ [] ∧ client.UnblockKey ≠ [] ∧ client.User ≠ []
    · rw [if_pos h]
      exact Or.inr ⟨h.2.2, h.1, h.2.1⟩
    · rw [if_neg h]
      exact Or.inl ⟨rfl, rfl, rfl⟩

/-- C10. `unmarshalAndCloseStream` closes the stream exactly once, as its last effect,
on every path. When reading fails the read error is returned, the destination is
untouched and `json.Unmarshal` is not called; otherwise `json.Unmarshal` is called
once on the bytes read and its error, or nil, is returned. -/
theorem unmarshalAndCloseStream_closes_once {α : Type}
    (Unmarshal : GoString → α → α × Option GoError) (stream : Stream) (res : α) :
    ((unmarshalAndCloseStream Unmarshal stream res).2.filter
        (fun e => match e with
          | .Close _ => true
          | _ => false)) = [.Close stream] ∧
    (unmarshalAndCloseStream Unmarshal stream res).2.getLast? = some (.Close stream) ∧
    (∀ err, stream.readErr = some err →
      unmarshalAndCloseStream Unmarshal stream res =
        ((some err, res), [.ReadAll stream, .Close stream])) ∧
    (stream.readErr = none →
      unmarshalAndCloseStream Unmarshal stream res =
        (((Unmarshal stream.data res).2, (Unmarshal stream.data res).1),
         [.ReadAll stream, .Unmarshal stream.data, .Close stream])) := by
  cases hr : stream.readErr with
  | none => simp [unmarshalAndCloseStream, ReadAll, hr]
  | some err => simp [unmarshalAndCloseStream, ReadAll, hr]

/-- C2, as the claim states it, fails: the signed URL carries exactly one value each
for `user` (the requesting user `alice`), `until`, `method` and `token`, and one more
parameter with a malformed escape; `url.ParseQuery` reports the escape and `signUrl`
returns that error and no URL. -/
theorem signUrl_signed_url_query_error :
    Values.get (ParseQuery
      "user=alice&until=2099-01-01&method=GET&token=abc123&sig=%zz".toList).1 "user".toList =
        [aliceRequest.User] ∧
    Values.get (ParseQuery
      "user=alice&until=2099-01-01&method=GET&token=abc123&sig=%zz".toList).1 "until".toList =
        ["2099-01-01".toList] ∧
    Values.get (ParseQuery
      "user=alice&until=2099-01-01&method=GET&token=abc123&sig=%zz".toList).1 "method".toList =
        ["GET".toList] ∧
    Values.get (ParseQuery
      "user=alice&until=2099-01-01&method=GET&token=abc123&sig=%zz".toList).1 "token".toList =
        ["abc123".toList] ∧
    (signUrl (mockEnv (okResponse
        "https://demo.dataverse.org/api/v1/access/datafile/7?user=alice&until=2099-01-01&method=GET&token=abc123&sig=%zz"))
      aliceRequest).1 =
    some ([], false, some (.EscapeError "%zz".toList)) := by
  decide

/-- C2, amended. With complete signing credentials, when the signing call is answered
and the answer decodes to a response with status `OK` whose signed URL parses and
whose query parses without error, with
exactly one value each for `user` (the requesting user), `until`, `method` and
`token`, `signUrl` returns nil error, `addTokenToHeader = false`, and the unsigned,
non-decoded URL followed by `?` (by `&` when it holds a `?` already) and by
`until=…&user=…&method=…&token=…` with the decoded values as they are. -/
theorem signUrl_signed_url (env : Env) (req : Request) (unescaped : GoString)
    (request : HttpRequest) (respBody : Stream) (res : SignedUrlResponse) (parsed : URL)
    (q : Values) (until_ method token : GoString)
    (hcred : req.ApiKey ≠ [] ∧ req.UnblockKey ≠ [] ∧ req.User ≠ [])
    (hunescape : QueryUnescape (if HasPrefix req.Path req.DataverseServer then req.Path
        else req.DataverseServer ++ req.Path) = .ok unescaped)
    (hrequest : signingRequest env req unescaped = some request)
    (hdo : env.Do request = .ok respBody)
    (hread : respBody.readErr = none)
    (hdecode : env.Unmarshal respBody.data
        { Status := [], Message := [], Data := { SignedUrl := [] } } = (res, none))
    (hstatus : res.Status = "OK".toList)
    (hparse : env.Parse res.Data.SignedUrl = .ok parsed)
    (hquery : ParseQuery parsed.RawQuery = (q, none))
    (huser : Values.get q "user".toList = [req.User])
    (huntil : Values.get q "until".toList = [until_])
    (hmethod : Values.get q "method".toList = [method])
    (htoken : Values.get q "token".toList = [token]) :
    (signUrl env req).1 =
      some ((if HasPrefix req.Path req.DataverseServer then req.Path
             else req.DataverseServer ++ req.Path) ++
            (if Contains (if HasPrefix req.Path req.DataverseServer then req.Path
                else req.DataverseServer ++ req.Path) '?' then "&".toList else "?".toList) ++
            "until=".toList ++ until_ ++ "&user=".toList ++ req.User ++
            "&method=".toList ++ method ++ "&token=".toList ++ token, false, none) := by
  have hc : ¬(req.ApiKey = [] ∨ req.UnblockKey = [] ∨ req.User = []) := by
    rintro (h | h | h)
    · exact hcred.1 h
    · exact hcred.2.1 h
    · exact hcred.2.2 h
  unfold signUrl
  simp only [if_neg hc, hunescape, hrequest, hdo, unmarshalAndCloseStream, ReadAll, hread,
    hdecode, hstatus, hparse, hquery, huser, huntil, hmethod, htoken, List.length_singleton,
    List.headD_cons, ne_eq, not_true_eq_false, or_self, if_false]

/-- Witness of C2, amended: the claims `user=alice&until=2099-01-01&method=GET&token=abc123`
for the requesting user `alice`. -/
theorem signUrl_signed_url_witness :
    (signUrl (mockEnv (okResponse
        "https://demo.dataverse.org/api/v1/access/datafile/7?user=alice&until=2099-01-01&method=GET&token=abc123"))
      aliceRequest).1 =
    some ("https://demo.dataverse.org/api/v1/access/datafile/7?until=2099-01-01&user=alice&method=GET&token=abc123".toList,
      false, none) :=
  (signUrl_signed_url
    (mockEnv (okResponse
      "https://demo.dataverse.org/api/v1/access/datafile/7?user=alice&until=2099-01-01&method=GET&token=abc123"))
    aliceRequest _ _ _ _ _ _ "2099-01-01".toList "GET".toList "abc123".toList
    (by decide) rfl rfl rfl rfl rfl rfl rfl rfl (by decide) (by decide) (by decide)
    (by decide)).trans (by decide)

/-- C3. With complete signing credentials, when the signing call is answered and the
answer decodes to a response with status `OK` whose signed URL and query parse, and
the values of `user` in the query are not exactly the requesting user (none, several,
or one that differs), `signUrl` returns the empty URL, `addTokenToHeader = false` and
the error `unknown user: <requesting user>`, whatever `until`, `method` and `token`
are. -/
theorem signUrl_unknown_user (env : Env) (req : Request) (unescaped : GoString)
    (request : HttpRequest) (respBody : Stream) (res : SignedUrlResponse) (parsed : URL)
    (q : Values)
    (hcred : req.ApiKey ≠ [] ∧ req.UnblockKey ≠ [] ∧ req.User ≠ [])
    (hunescape : QueryUnescape (if HasPrefix req.Path req.DataverseServer then req.Path
        else req.DataverseServer ++ req.Path) = .ok unescaped)
    (hrequest : signingRequest env req unescaped = some request)
    (hdo : env.Do request = .ok respBody)
    (hread : respBody.readErr = none)
    (hdecode : env.Unmarshal respBody.data
        { Status := [], Message := [], Data := { SignedUrl := [] } } = (res, none))
    (hstatus : res.Status = "OK".toList)
    (hparse : env.Parse res.Data.SignedUrl = .ok parsed)
    (hquery : ParseQuery parsed.RawQuery = (q, none))
    (huser : Values.get q "user".toList ≠ [req.User]) :
    (signUrl env req).1 =
      some ([], false, some (.errorString ("unknown user: ".toList ++ req.User))) := by
  have hc : ¬(req.ApiKey = [] ∨ req.UnblockKey = [] ∨ req.User = []) := by
    rintro (h | h | h)
    · exact hcred.1 h
    · exact hcred.2.1 h
    · exact hcred.2.2 h
  have hu : (Values.get q "user".toList).length ≠ 1 ∨
      (Values.get q "user".toList).headD [] ≠ req.User := by
    rcases hl : Values.get q "user".toList with _ | ⟨a, _ | ⟨b, l⟩⟩
    · exact Or.inl (by simp)
    · right
      intro ha
      apply huser
      rw [hl]
      simpa using ha
    · exact Or.inl (by simp)
  unfold signUrl
  simp only [if_neg hc, hunescape, hrequest, hdo, unmarshalAndCloseStream, ReadAll, hread,
    hdecode, hstatus, hparse, hquery, ne_eq, not_true_eq_false, if_false]
  rw [if_pos hu]

/-- Witness of C3: `user=bob` in the signed URL, requesting user `alice`; the other
three claims are in order. -/
theorem signUrl_unknown_user_witness :
    (signUrl (mockEnv (okResponse
        "https://demo.dataverse.org/api/v1/access/datafile/7?user=bob&until=2099-01-01&method=GET&token=abc123"))
      aliceRequest).1 =
    some ([], false, some (.errorString "unknown user: alice".toList)) :=
  (signUrl_unknown_user
    (mockEnv (okResponse
      "https://demo.dataverse.org/api/v1/access/datafile/7?user=bob&until=2099-01-01&method=GET&token=abc123"))
    aliceRequest _ _ _ _ _ _
    (by decide) rfl rfl rfl rfl rfl rfl rfl rfl (by decide)).trans (by decide)

/-- Rendering `[]` of `%v`: it stands for no value and for one empty value alike. -/
theorem fmtStrings_eq_brackets (vs : List GoString) :
    fmtStrings vs = "[]".toList ↔ vs = [] ∨ vs = [[]] := by
  have hb : "[]".toList = ['[', ']'] := rfl
  rw [hb]
  rcases vs with _ | ⟨a, _ | ⟨b, l⟩⟩
  · simp [fmtStrings, List.intercalate]
  · cases a <;> simp [fmtStrings, List.intercalate]
  · simp only [fmtStrings, List.intercalate, List.intersperse, List.flatten]
    constructor
    · intro h
      have hl := congrArg List.length h
      simp at hl
      omega
    · intro h
      simp at h

/-- C4, as the claim states it, fails. First, the signed URL carries one `user`
(the requesting user `alice`) and no `token`, and one more parameter with a malformed
escape: `signUrl` returns the error of `url.ParseQuery`, not a
`missing one of signature fields` error. Second, for a signed URL with `until=`
(present once, empty) and no `token`, the error text shows `until=[]` and `token=[]`
alike, so it does not tell which of the two is absent. -/
theorem signUrl_missing_signature_fields_query_error :
    (Values.get (ParseQuery "user=alice&until=2099-01-01&method=GET&sig=%zz".toList).1
        "user".toList = [aliceRequest.User] ∧
     (Values.get (ParseQuery "user=alice&until=2099-01-01&method=GET&sig=%zz".toList).1
        "token".toList).length ≠ 1 ∧
     (signUrl (mockEnv (okResponse
        "https://demo.dataverse.org/api/v1/access/datafile/7?user=alice&until=2099-01-01&method=GET&sig=%zz"))
       aliceRequest).1 =
     some ([], false, some (.EscapeError "%zz".toList))) ∧
    (Values.get (ParseQuery "user=alice&until=&method=GET".toList).1 "until".toList = [[]] ∧
     Values.get (ParseQuery "user=alice&until=&method=GET".toList).1 "token".toList = [] ∧
     (signUrl (mockEnv (okResponse
        "https://demo.dataverse.org/api/v1/access/datafile/7?user=alice&until=&method=GET"))
       aliceRequest).1 =
     some ([], false, some (.errorString
       "missing one of signature fields: until=[], method=[GET], token=[]".toList))) := by
  decide

/-- C4, amended. With complete signing credentials, when the signing call is answered
and the answer decodes to a response with status `OK` whose signed URL parses, whose
query parses without error and carries exactly one `user`, the requesting user:
`signUrl` returns a `missing one of signature fields` error exactly when one of
`until`, `method`, `token` does not have exactly one value. The text of that error is
`missing one of signature fields: until=V, method=V, token=V`, each `V` the values
found for the field, between brackets and separated by blanks; `V` is `[]` exactly for
an absent field and for a field present once with an empty value. -/
theorem signUrl_missing_signature_fields (env : Env) (req : Request) (unescaped : GoString)
    (request : HttpRequest) (respBody : Stream) (res : SignedUrlResponse) (parsed : URL)
    (q : Values)
    (hcred : req.ApiKey ≠ [] ∧ req.UnblockKey ≠ [] ∧ req.User ≠ [])
    (hunescape : QueryUnescape (if HasPrefix req.Path req.DataverseServer then req.Path
        else req.DataverseServer ++ req.Path) = .ok unescaped)
    (hrequest : signingRequest env req unescaped = some request)
    (hdo : env.Do request = .ok respBody)
    (hread : respBody.readErr = none)
    (hdecode : env.Unmarshal respBody.data
        { Status := [], Message := [], Data := { SignedUrl := [] } } = (res, none))
    (hstatus : res.Status = "OK".toList)
    (hparse : env.Parse res.Data.SignedUrl = .ok parsed)
    (hquery : ParseQuery parsed.RawQuery = (q, none))
    (huser : Values.get q "user".toList = [req.User]) :
    ((∃ text, (signUrl env req).1 =
        some ([], false,
          some (.errorString ("missing one of signature fields: ".toList ++ text)))) ↔
      ((Values.get q "until".toList).length ≠ 1 ∨ (Values.get q "method".toList).length ≠ 1 ∨
        (Values.get q "token".toList).length ≠ 1)) ∧
    (((Values.get q "until".toList).length ≠ 1 ∨ (Values.get q "method".toList).length ≠ 1 ∨
        (Values.get q "token".toList).length ≠ 1) →
      (signUrl env req).1 =
        some ([], false,
          some (.errorString ("missing one of signature fields: until=".toList ++
            fmtStrings (Values.get q "until".toList) ++ ", method=".toList ++
            fmtStrings (Values.get q "method".toList) ++ ", token=".toList ++
            fmtStrings (Values.get q "token".toList))))) ∧
    (∀ vs : List GoString, fmtStrings vs = "[]".toList ↔ vs = [] ∨ vs = [[]]) := by
  have hc : ¬(req.ApiKey = [] ∨ req.UnblockKey = [] ∨ req.User = []) := by
    rintro (h | h | h)
    · exact hcred.1 h
    · exact hcred.2.1 h
    · exact hcred.2.2 h
  have hs : (signUrl env req).1 =
      if (Values.get q "until".toList).length ≠ 1 ∨ (Values.get q "method".toList).length ≠ 1 ∨
          (Values.get q "token".toList).length ≠ 1 then
        some ([], false,
          some (.errorString ("missing one of signature fields: until=".toList ++
            fmtStrings (Values.get q "until".toList) ++ ", method=".toList ++
            fmtStrings (Values.get q "method".toList) ++ ", token=".toList ++
            fmtStrings (Values.get q "token".toList))))
      else
        some ((if HasPrefix req.Path req.DataverseServer then req.Path
               else req.DataverseServer ++ req.Path) ++
              (if Contains (if HasPrefix req.Path req.DataverseServer then req.Path
                  else req.DataverseServer ++ req.Path) '?' then "&".toList else "?".toList) ++
              "until=".toList ++ (Values.get q "until".toList).headD [] ++ "&user=".toList ++
              req.User ++ "&method=".toList ++ (Values.get q "method".toList).headD [] ++
              "&token=".toList ++ (Values.get q "token".toList).headD [], false, none) := by
    unfold signUrl
    simp only [if_neg hc, hunescape, hrequest, hdo, unmarshalAndCloseStream, ReadAll, hread,
      hdecode, hstatus, hparse, hquery, huser, List.length_singleton, List.headD_cons, ne_eq,
      not_true_eq_false, or_self, if_false]
    split <;> rfl
  refine ⟨?_, ?_, fmtStrings_eq_brackets⟩
  · constructor
    · rintro ⟨text, ht⟩
      by_contra hn
      rw [hs, if_neg hn] at ht
      simp at ht
    · intro hm
      refine ⟨"until=".toList ++ fmtStrings (Values.get q "until".toList) ++
        ", method=".toList ++ fmtStrings (Values.get q "method".toList) ++
        ", token=".toList ++ fmtStrings (Values.get q "token".toList), ?_⟩
      rw [hs, if_pos hm]
      simp
  · intro hm
    rw [hs, if_pos hm]

/-- Witness of C4, amended: a signed URL without the `token` parameter. -/
theorem signUrl_missing_signature_fields_witness :
    (signUrl (mockEnv (okResponse
        "https://demo.dataverse.org/api/v1/access/datafile/7?user=alice&until=2099-01-01&method=GET"))
      aliceRequest).1 =
    some ([], false, some (.errorString
      "missing one of signature fields: until=[2099-01-01], method=[GET], token=[]".toList)) :=
  ((signUrl_missing_signature_fields
    (mockEnv (okResponse
      "https://demo.dataverse.org/api/v1/access/datafile/7?user=alice&until=2099-01-01&method=GET"))
    aliceRequest _ _ _ _ _ _
    (by decide) rfl rfl rfl rfl rfl rfl rfl rfl (by decide)).2.1 (by decide)).trans (by decide)

/-- Format without `%`: `fmt.Sprintf` with no operands returns it unchanged. -/
theorem Sprintf0_of_no_percent (format : GoString) (h : '%' ∉ format) :
    Sprintf0 format = format := by
  have h1 : format.takeWhile (fun c => c != '%') = format := by
    rw [List.takeWhile_eq_self_iff]
    intro c hc
    have : c ≠ '%' := fun e => h (e ▸ hc)
    simpa using this
  have h2 : format.dropWhile (fun c => c != '%') = [] := by
    rw [List.dropWhile_eq_nil_iff]
    intro c hc
    have : c ≠ '%' := fun e => h (e ▸ hc)
    simpa using this
  simp only [Sprintf0, doPrintf, h1, h2]

/-- Rejected signing: with complete credentials, when the signing call is answered and
the answer decodes to a response whose status is not `OK`, `signUrl` returns the empty
URL and the error `fmt.Errorf(res.Message)`, the message used as a format. -/
theorem signUrl_rejected (env : Env) (req : Request) (unescaped : GoString)
    (request : HttpRequest) (respBody : Stream) (res : SignedUrlResponse)
    (hcred : req.ApiKey ≠ [] ∧ req.UnblockKey ≠ [] ∧ req.User ≠ [])
    (hunescape : QueryUnescape (if HasPrefix req.Path req.DataverseServer then req.Path
        else req.DataverseServer ++ req.Path) = .ok unescaped)
    (hrequest : signingRequest env req unescaped = some request)
    (hdo : env.Do request = .ok respBody)
    (hread : respBody.readErr = none)
    (hdecode : env.Unmarshal respBody.data
        { Status := [], Message := [], Data := { SignedUrl := [] } } = (res, none))
    (hstatus : res.Status ≠ "OK".toList) :
    (signUrl env req).1 = some ([], false, some (Errorf0 res.Message)) := by
  have hc : ¬(req.ApiKey = [] ∨ req.UnblockKey = [] ∨ req.User = []) := by
    rintro (h | h | h)
    · exact hcred.1 h
    · exact hcred.2.1 h
    · exact hcred.2.2 h
  unfold signUrl
  simp only [if_neg hc, hunescape, hrequest, hdo, unmarshalAndCloseStream, ReadAll, hread,
    hdecode]
  rw [if_pos hstatus]

/-- Rejected signing with a message that holds no `%`: the error text is the message. -/
theorem signUrl_rejected_plain_message (env : Env) (req : Request) (unescaped : GoString)
    (request : HttpRequest) (respBody : Stream) (res : SignedUrlResponse)
    (hcred : req.ApiKey ≠ [] ∧ req.UnblockKey ≠ [] ∧ req.User ≠ [])
    (hunescape : QueryUnescape (if HasPrefix req.Path req.DataverseServer then req.Path
        else req.DataverseServer ++ req.Path) = .ok unescaped)
    (hrequest : signingRequest env req unescaped = some request)
    (hdo : env.Do request = .ok respBody)
    (hread : respBody.readErr = none)
    (hdecode : env.Unmarshal respBody.data
        { Status := [], Message := [], Data := { SignedUrl := [] } } = (res, none))
    (hstatus : res.Status ≠ "OK".toList) (hplain : '%' ∉ res.Message) :
    (signUrl env req).1 = some ([], false, some (.errorString res.Message)) := by
  rw [signUrl_rejected env req unescaped request respBody res hcred hunescape hrequest hdo
    hread hdecode hstatus, Errorf0, Sprintf0_of_no_percent _ hplain]

/-- C5, at the failing input: the signing service answers with status `FAILED` and the
message `quota 100% exceeded`. `fmt.Errorf(res.Message)` reads `% e` as a directive
without operand, and the error text is `quota 100%!e(MISSING)xceeded`, not the
message. -/
theorem signUrl_rejected_message_reformatted :
    (signUrl (mockEnv { Status := "FAILED".toList, Message := "quota 100% exceeded".toList,
                        Data := { SignedUrl := [] } }) aliceRequest).1 =
      some ([], false, some (.errorString "quota 100%!e(MISSING)xceeded".toList)) ∧
    "quota 100%!e(MISSING)xceeded".toList ≠ "quota 100% exceeded".toList := by
  decide

/-- Resolved URL has the server base as a prefix. -/
theorem HasPrefix_target (server path : GoString) :
    HasPrefix (if HasPrefix path server then path else server ++ path) server = true := by
  by_cases h : HasPrefix path server = true
  · rw [if_pos h]
    exact h
  · rw [if_neg h]
    simp [HasPrefix]

/-- C6. The unsigned target URL of `signUrl` is the path when the server base is a
prefix of the path, and server base followed by path otherwise. It is the URL
returned in token-header mode, and every URL returned in signed-URL mode is this URL
followed by `?` or `&` and the four signature parameters. Resolving the resolved URL
again against the same server base returns it unchanged. -/
theorem signUrl_target_url (env : Env) (req : Request) :
    ((req.ApiKey = [] ∨ req.UnblockKey = [] ∨ req.User = []) →
      (signUrl env req).1 =
        some (if HasPrefix req.Path req.DataverseServer then req.Path
              else req.DataverseServer ++ req.Path, true, none)) ∧
    (∀ s, (signUrl env req).1 = some (s, false, none) →
      ∃ until_ user method token : GoString,
        s = (if HasPrefix req.Path req.DataverseServer then req.Path
             else req.DataverseServer ++ req.Path) ++
            (if Contains (if HasPrefix req.Path req.DataverseServer then req.Path
                else req.DataverseServer ++ req.Path) '?' then "&".toList else "?".toList) ++
            "until=".toList ++ until_ ++ "&user=".toList ++ user ++
            "&method=".toList ++ method ++ "&token=".toList ++ token) ∧
    ((req.ApiKey = [] ∨ req.UnblockKey = [] ∨ req.User = []) →
      signUrl env { req with Path := if HasPrefix req.Path req.DataverseServer then req.Path
                                     else req.DataverseServer ++ req.Path } =
        signUrl env req) ∧
    (if HasPrefix (if HasPrefix req.Path req.DataverseServer then req.Path
          else req.DataverseServer ++ req.Path) req.DataverseServer
      then (if HasPrefix req.Path req.DataverseServer then req.Path
            else req.DataverseServer ++ req.Path)
      else req.DataverseServer ++ (if HasPrefix req.Path req.DataverseServer then req.Path
            else req.DataverseServer ++ req.Path)) =
      (if HasPrefix req.Path req.DataverseServer then req.Path
       else req.DataverseServer ++ req.Path) := by
  refine ⟨?_, ?_, ?_, ?_⟩
  · intro h
    unfold signUrl
    simp only [if_pos h]
  · intro s hs
    unfold signUrl at hs
    dsimp only at hs
    generalize (if HasPrefix req.Path req.DataverseServer then req.Path
      else req.DataverseServer ++ req.Path) = u at hs ⊢
    repeat (split at hs <;> try (simp at hs; done))
    all_goals
      rename_i q _ _ _ hcontains
      simp only [Option.some.injEq, Prod.mk.injEq, and_true] at hs
      refine ⟨(Values.get q "until".toList).headD [], (Values.get q "user".toList).headD [],
        (Values.get q "method".toList).headD [], (Values.get q "token".toList).headD [], ?_⟩
      rw [← hs]
      first
        | rw [if_pos hcontains]
        | rw [if_neg hcontains]
  · intro h
    unfold signUrl
    simp only [if_pos h, HasPrefix_target, if_true]
  · rw [if_pos (HasPrefix_target _ _)]

/-- Lookup after `m[k] = append(m[k], v)`. -/
theorem Values.get_append (m : Values) (k v key : GoString) :
    Values.get (Values.append m k v) key =
      if k = key then Values.get m key ++ [v] else Values.get m key := by
  induction m with
  | nil =>
    by_cases h : k = key <;> simp [Values.append, Values.get, h]
  | cons e m ih =>
    obtain ⟨k1, vs⟩ := e
    by_cases h1 : k1 = k
    · subst h1
      by_cases h : k1 = key <;> simp [Values.append, Values.get, h]
    · by_cases h : k = key
      · subst h
        simp [Values.append, Values.get, h1, ih]
      · by_cases h2 : k1 = key
        · subst h2
          simp [Values.append, Values.get, h1, h]
        · simp [Values.append, Values.get, h1, h, h2, ih]

/-- Values of a key after the inner loop of `DoStream` has added the values `vs` of the
caller's key `k`. -/
theorem get_foldl_Add (vs : List GoString) (h : Header) (k key : GoString) :
    Values.get (vs.foldl (fun h s => Header.Add h k s) h) key =
      Values.get h key ++ (if CanonicalMIMEHeaderKey k = key then vs else []) := by
  induction vs generalizing h with
  | nil => simp
  | cons v vs ih =>
    rw [List.foldl_cons, ih, Header.Add, Values.get_append]
    by_cases hk : CanonicalMIMEHeaderKey k = key <;> simp [hk]

/-- Values of a key after the outer loop of `DoStream` over the caller's entries. -/
theorem get_foldl_entries (entries : Header) (h : Header) (key : GoString) :
    Values.get (entries.foldl (fun h kv => kv.2.foldl (fun h s => Header.Add h kv.1 s) h) h)
        key =
      Values.get h key ++
        ((entries.filter (fun kv => decide (CanonicalMIMEHeaderKey kv.1 = key))).map
          (fun kv => kv.2)).flatten := by
  induction entries generalizing h with
  | nil => simp
  | cons e entries ih =>
    rw [List.foldl_cons, ih, get_foldl_Add]
    by_cases hk : CanonicalMIMEHeaderKey e.1 = key <;> simp [hk, List.filter_cons]

/-- C8. When `signUrl` has resolved `(u, addTokenToHeader)` and the request can be
built, `DoStream` sends one request, to `u`. Under every header name its values are:
the token of the request, for `X-Dataverse-Key` and only if `addTokenToHeader` is true
and the token is not empty; then the values of the caller's entries with that
canonical name, in the order of the caller's lists, none replaced. With
`addTokenToHeader = false` no token is added, empty or not. -/
theorem DoStream_headers (env : Env) (req : Request) (u : GoString) (addTokenToHeader : Bool)
    (ev : List Event) (request : HttpRequest)
    (hsign : signUrl env req = (some (u, addTokenToHeader, none), ev))
    (hnew : NewRequestWithContext env req.Method u (.reader req.RequestBody) = .ok request) :
    ∃ out : HttpRequest,
      (DoStream env req).2 = ev ++ [Event.Do out] ∧ out.URL = u ∧
      out.Body = .reader req.RequestBody ∧
      ∀ key : GoString,
        Values.get out.Header key =
          (if addTokenToHeader = true ∧ req.Token ≠ [] ∧ key = "X-Dataverse-Key".toList
            then [req.Token] else []) ++
          ((req.RequestHeader.filter
              (fun kv => decide (CanonicalMIMEHeaderKey kv.1 = key))).map
            (fun kv => kv.2)).flatten := by
  have hreq : request = { Method := if req.Method = [] then "GET".toList else req.Method,
                          URL := u, Body := .reader req.RequestBody, Header := [] } := by
    unfold NewRequestWithContext at hnew
    dsimp only at hnew
    split at hnew
    · simp at hnew
    · simpa using hnew.symm
  refine ⟨{ request with Header := (req.RequestHeader.foldl
      (fun h kv => kv.2.foldl (fun h s => Header.Add h kv.1 s) h)
      (if addTokenToHeader && decide (req.Token ≠ []) then
        Header.Add request.Header "X-Dataverse-key".toList req.Token
       else request.Header)) }, ?_, ?_, ?_, ?_⟩
  · unfold DoStream
    simp only [hsign, hnew]
    split <;> rfl
  · rw [hreq]
  · rw [hreq]
  · intro key
    have hcanon : CanonicalMIMEHeaderKey "X-Dataverse-key".toList = "X-Dataverse-Key".toList := by
      decide
    rw [get_foldl_entries, hreq]
    congr 1
    by_cases hcond : addTokenToHeader = true ∧ req.Token ≠ [] ∧ key = "X-Dataverse-Key".toList
    · have hb : (addTokenToHeader && decide (req.Token ≠ [])) = true := by
        simp [hcond.1, hcond.2.1]
      rw [if_pos hcond, if_pos hb, Header.Add, Values.get_append, hcanon, if_pos hcond.2.2.symm]
      rfl
    · rw [if_neg hcond]
      by_cases hb : (addTokenToHeader && decide (req.Token ≠ [])) = true
      · have hne : ¬ "X-Dataverse-Key".toList = key := by
          intro e
          apply hcond
          simp only [Bool.and_eq_true, decide_eq_true_eq] at hb
          exact ⟨hb.1, hb.2, e.symm⟩
        rw [if_pos hb, Header.Add, Values.get_append, hcanon, if_neg hne]
        rfl
      · rw [if_neg hb]
        rfl

/-- Witness of C8: a token client that supplies one header of its own, for a
well-formed path. -/
theorem DoStream_headers_witness :
    (DoStream (strictEnv (okResponse "")) headerRequest).2 =
      [Event.Do
        { Method := "GET".toList
          URL := "https://demo.dataverse.org/api/v1/access/datafile/7".toList
          Body := .reader none
          Header := [("X-Dataverse-Key".toList, ["your-api-token".toList]),
                     ("Content-Type".toList, ["application/json".toList])] }] ∧
    ∃ out : HttpRequest,
      (DoStream (strictEnv (okResponse "")) headerRequest).2 = [] ++ [Event.Do out] ∧
      out.URL = "https://demo.dataverse.org/api/v1/access/datafile/7".toList ∧
      out.Body = .reader headerRequest.RequestBody ∧
      ∀ key : GoString,
        Values.get out.Header key =
          (if true = true ∧ headerRequest.Token ≠ [] ∧ key = "X-Dataverse-Key".toList
            then [headerRequest.Token] else []) ++
          ((headerRequest.RequestHeader.filter
              (fun kv => decide (CanonicalMIMEHeaderKey kv.1 = key))).map
            (fun kv => kv.2)).flatten :=
  ⟨by decide,
   DoStream_headers (strictEnv (okResponse "")) headerRequest
     "https://demo.dataverse.org/api/v1/access/datafile/7".toList true [] _
     (by decide) rfl⟩

/-- C9, at the failing input: the server base of the request ends in a line feed, so
the URL of the signing service holds a control byte and `http.NewRequestWithContext`
returns an error and a nil request. `signingRequest` drops the error (`DoStream`
checks the error of the same call) and `request.Header.Add` dereferences nil: no
request is built, the function panics. -/
theorem signingRequest_no_request :
    signingRequest (strictEnv (okResponse "")) lineFeedRequest
      "https://demo.dataverse.org\n/api/v1/access/datafile/7".toList = none := by
  decide

/-- Request built by `signingRequest` when `http.NewRequestWithContext` accepts the URL
of the signing service: a POST request to
`DataverseServer + "/api/v1/admin/requestSignedUrl?unblock-key=" + UnblockKey`, with
the header `X-Dataverse-key` equal to `ApiKey` (stored by `Header.Add` under the
canonical name `X-Dataverse-Key`), the header `Content-Type` equal to
`application/json`, and a JSON body with `expirySeconds = 500` and with `url`, `user`
and `httpMethod` the strings `u`, `User` and `Method` as `json.Marshal` writes them:
an invalid UTF-8 byte becomes U+FFFD. -/
theorem signingRequest_builds (env : Env) (req : Request) (u : GoString)
    (hurl : env.requestError "POST".toList
      (req.DataverseServer ++ "/api/v1/admin/requestSignedUrl?unblock-key=".toList ++
        req.UnblockKey) = none) :
    signingRequest env req u =
      some { Method := "POST".toList
             URL := req.DataverseServer ++
               "/api/v1/admin/requestSignedUrl?unblock-key=".toList ++ req.UnblockKey
             Body := .buffer [("url".toList, .str (toValidUTF8 u)),
                              ("expirySeconds".toList, .num 500),
                              ("user".toList, .str (toValidUTF8 req.User)),
                              ("httpMethod".toList, .str (toValidUTF8 req.Method))]
             Header := [("X-Dataverse-Key".toList, [req.ApiKey]),
                        ("Content-Type".toList, ["application/json".toList])] } := by
  have h1 : CanonicalMIMEHeaderKey "X-Dataverse-key".toList = "X-Dataverse-Key".toList := by
    decide
  have h2 : CanonicalMIMEHeaderKey "Content-Type".toList = "Content-Type".toList := by
    decide
  have h3 : ¬ "X-Dataverse-Key".toList = "Content-Type".toList := by decide
  have h4 : ¬ "POST".toList = ([] : GoString) := by decide
  unfold signingRequest NewRequestWithContext
  simp only [if_neg h4, hurl, Header.Add, h1, h2, Values.append, if_neg h3, Marshal]

/-- Signing request for `alice`: all strings are ASCII and reach the body unchanged. -/
theorem signingRequest_builds_sample :
    signingRequest (strictEnv (okResponse "")) aliceRequest
        "https://demo.dataverse.org/api/v1/access/datafile/7".toList =
      some { Method := "POST".toList
             URL := "https://demo.dataverse.org/api/v1/admin/requestSignedUrl?unblock-key=unblock-key".toList
             Body := .buffer [("url".toList,
                                .str "https://demo.dataverse.org/api/v1/access/datafile/7".toList),
                              ("expirySeconds".toList, .num 500),
                              ("user".toList, .str "alice".toList),
                              ("httpMethod".toList, .str "GET".toList)]
             Header := [("X-Dataverse-Key".toList, ["admin-api-key".toList]),
                        ("Content-Type".toList, ["application/json".toList])] } :=
  (signingRequest_builds (strictEnv (okResponse "")) aliceRequest
    "https://demo.dataverse.org/api/v1/access/datafile/7".toList (by decide)).trans (by decide)

end Api
